import Mathlib

/-!
# Verification of the commit-to-discord delta-tracking engine

A shallow embedding, in Lean 4, of the core of `commit_watcher.py` from the
`mdrxy/commit-to-discord` repository: per-branch cursor tracking, branch
blacklist filtering, commit fetching with bounded retry, delta computation,
notification payload construction and dispatch, cursor persistence, and the
polling loop with shutdown handling.

Conventions used throughout:
* Python dictionaries (the nested `last_commits` mapping, the blacklist
  mapping) are embedded as association lists with first-match lookup and
  in-place update, which coincides with `dict` semantics because all maps
  built by the program have unique keys.
* Network I/O is embedded by passing each call's possible outcomes in an
  environment: an attempt oracle gives the outcome of the n-th transport
  attempt of a request, mirroring `requests.request` inside
  `request_with_retry`.
* A Python exception that the source does **not** catch is embedded as
  `Except.error`; a function that catches/logs and degrades returns `.ok`
  with the degraded value.  An `.error` escaping the top-level loop models
  process termination by an uncaught exception.
* `hashlib.md5` is an external library collaborator; it is passed in as an
  abstract `md5hex` function in the environment (its value is irrelevant to
  every claim).
-/

/-! ## Module constants (`commit_watcher.py` lines 38-41, 179-181) -/

def STATUS_OK : Nat := 200

def STATUS_NO_CONTENT : Nat := 204

def MAX_MESSAGE_LENGTH : Nat := 55

def TRUNCATE_LENGTH : Nat := 52

def MAX_RETRIES : Nat := 3

/-! ## Shell-glob matching (the `fnmatch.fnmatch` collaborator)

`is_branch_blacklisted` matches branch names against shell-glob patterns via
the standard library's `fnmatch.fnmatch` (on POSIX, `os.path.normcase` is the
identity, so matching is case-sensitive).  We embed the glob dialect of
`fnmatch.translate`: `*` matches any sequence, `?` any single character,
`[seq]` a character class with ranges, `[!seq]` a negated class, and a `[`
that opens no well-formed class is a literal.  The pattern must match the
whole name.  Recursion is by explicit fuel; the fuel supplied at the top
level strictly dominates every chain of recursive calls (each call shrinks
`pattern length + name length`). -/

inductive GlobTok where
  | lit (c : Char)
  | anyChar
  | star
  | charClass (negated : Bool) (body : List Char)
deriving Repr, DecidableEq

/-- Scan a character-class body up to the closing `]`; `none` if unclosed. -/
def scanClassBody : List Char → Option (List Char × List Char)
  | [] => none
  | ']' :: rest => some ([], rest)
  | c :: rest =>
    match scanClassBody rest with
    | some (body, r) => some (c :: body, r)
    | none => none

/-- Class body scan where a leading `]` is a literal member
(`fnmatch.translate` consumes it before searching for the closing `]`). -/
def scanClassStart : List Char → Option (List Char × List Char)
  | ']' :: r =>
    match scanClassBody r with
    | some (b, rest) => some (']' :: b, rest)
    | none => none
  | ps => scanClassBody ps

/-- Parse the text following `[`: optional negation `!`, then the body. -/
def parseCharClass (ps : List Char) : Option (Bool × List Char × List Char) :=
  match ps with
  | '!' :: ps1 => (scanClassStart ps1).map (fun p => (true, p.1, p.2))
  | _ => (scanClassStart ps).map (fun p => (false, p.1, p.2))

/-- Membership in a character-class body, honouring `a-z` ranges; a `-` that
has no right endpoint is a literal. -/
def classMemb : List Char → Char → Bool
  | a :: '-' :: b :: rest, c => (decide (a ≤ c) && decide (c ≤ b)) || classMemb rest c
  | a :: rest, c => (a == c) || classMemb rest c
  | [], _ => false

/-- Compile a glob pattern to tokens.  Fuel: each step consumes at least one
pattern character, so `pattern.length` fuel is always sufficient. -/
def compileGlob : Nat → List Char → List GlobTok
  | 0, _ => []
  | _, [] => []
  | fuel + 1, p :: ps =>
    match p with
    | '*' => .star :: compileGlob fuel ps
    | '?' => .anyChar :: compileGlob fuel ps
    | '[' =>
      match parseCharClass ps with
      | some (neg, body, rest) => .charClass neg body :: compileGlob fuel rest
      | none => .lit '[' :: compileGlob fuel ps
    | c => .lit c :: compileGlob fuel ps

/-- Match a token list against a name.  Fuel: every recursive call strictly
decreases `tokens.length + name.length`, so `tokens.length + name.length + 1`
fuel is always sufficient. -/
def matchToks : Nat → List GlobTok → List Char → Bool
  | 0, _, _ => false
  | fuel + 1, ts, s =>
    match ts, s with
    | [], [] => true
    | [], _ :: _ => false
    | .star :: ts1, [] => matchToks fuel ts1 []
    | .star :: ts1, c :: cs => matchToks fuel ts1 (c :: cs) || matchToks fuel (.star :: ts1) cs
    | .anyChar :: ts1, _ :: cs => matchToks fuel ts1 cs
    | .anyChar :: _, [] => false
    | .lit p :: ts1, c :: cs => (p == c) && matchToks fuel ts1 cs
    | .lit _ :: _, [] => false
    | .charClass neg body :: ts1, c :: cs => (classMemb body c != neg) && matchToks fuel ts1 cs
    | .charClass _ _ :: _, [] => false

/-- `fnmatch.fnmatch(name, pat)` on a POSIX system: full-name glob match. -/
def fnmatch (name pat : String) : Bool :=
  let ts := compileGlob pat.toList.length pat.toList
  matchToks (ts.length + name.toList.length + 1) ts name.toList

/-! ## Blacklist parsing and filtering (`commit_watcher.py` lines 103-159)

The Python code builds `dict[str, list[str]]` mapping `"global"` or an
`owner/repo` key to its patterns.  We embed the mapping as the list of
`(key, pattern)` pairs in insertion order; `patternsFor` recovers
`blacklist_patterns.get(key, [])`. -/

/-- `blacklist_patterns.get(key, [])`: the patterns stored under `key`,
in insertion order. -/
def patternsFor (bp : List (String × String)) (key : String) : List String :=
  (bp.filter (fun p => p.1 == key)).map (fun p => p.2)

/-- `parse_blacklist_patterns`: comma-split, strip each entry; an entry with
a colon is split at the first colon into `(repo key, pattern)`, a bare entry
is a global pattern. -/
def parse_blacklist_patterns (blacklist_string : String) : List (String × String) :=
  if blacklist_string = "" then []
  else
    ((blacklist_string.splitOn ",").map String.trim).foldl
      (fun acc pat =>
        if pat.contains ':' then
          match pat.splitOn ":" with
          | repo_key :: restParts => acc ++ [(repo_key, String.intercalate ":" restParts)]
          | [] => acc
        else acc ++ [("global", pat)])
      []

/-- `is_branch_blacklisted`: first any global pattern, then any pattern
specific to `repo_key`; the Python early `return True` is the short-circuit
of `List.any` / `||`. -/
def is_branch_blacklisted (repo_key branch_name : String)
    (blacklist_patterns : List (String × String)) : Bool :=
  (patternsFor blacklist_patterns "global").any (fun pat => fnmatch branch_name pat)
    || (patternsFor blacklist_patterns repo_key).any (fun pat => fnmatch branch_name pat)

/-! ## The cursor mapping (`last_commits`)

`dict[str, dict[str, str]]`: repository key to branch name to last-notified
commit id, embedded as nested association lists. -/

abbrev BranchCursors := List (String × String)

abbrev Cursor := List (String × BranchCursors)

/-- Dictionary lookup: value of the first (unique) entry for `k`. -/
def alGet {α : Type} : List (String × α) → String → Option α
  | [], _ => none
  | p :: rest, k => if p.1 = k then some p.2 else alGet rest k

/-- Dictionary update `m[k] = v`: replace the entry for `k` in place, or
append a new entry. -/
def alSet {α : Type} : List (String × α) → String → α → List (String × α)
  | [], k, v => [(k, v)]
  | p :: rest, k, v => if p.1 = k then (k, v) :: rest else p :: alSet rest k v

/-- `last_commits.get(repo_key, {}).get(branch_name)`. -/
def alGet2 (cursor : Cursor) (repo_key branch_name : String) : Option String :=
  match alGet cursor repo_key with
  | none => none
  | some m => alGet m branch_name

/-- `last_commits[repo_key][branch_name] = v` (the loop guarantees
`repo_key` is already present; on an absent key this embeds `{}` first, as
`initialize_last_commits` and `monitor_feed` both do). -/
def alSet2 (cursor : Cursor) (repo_key branch_name v : String) : Cursor :=
  alSet cursor repo_key (alSet ((alGet cursor repo_key).getD []) branch_name v)

theorem alGet_alSet_self {α : Type} (m : List (String × α)) (k : String) (v : α) :
    alGet (alSet m k v) k = some v := by
  induction m with
  | nil => simp [alGet, alSet]
  | cons p rest ih =>
    by_cases h : p.1 = k
    · simp [alGet, alSet, h]
    · simp [alGet, alSet, h, ih]

theorem alGet_alSet_ne {α : Type} (m : List (String × α)) (k k' : String) (v : α)
    (h : k ≠ k') : alGet (alSet m k v) k' = alGet m k' := by
  induction m with
  | nil => simp [alGet, alSet, h]
  | cons p rest ih =>
    by_cases hp : p.1 = k
    · simp [alGet, alSet, hp, h]
    · by_cases hp' : p.1 = k'
      · simp [alGet, alSet, hp, hp', Ne.symm h]
      · simp [alGet, alSet, hp, hp', ih]

theorem alGet2_alSet2_self (cursor : Cursor) (rk bn v : String) :
    alGet2 (alSet2 cursor rk bn v) rk bn = some v := by
  simp [alGet2, alSet2, alGet_alSet_self]

theorem alGet2_alSet2_ne_repo (cursor : Cursor) (rk rk' bn bn' v : String)
    (h : rk ≠ rk') : alGet2 (alSet2 cursor rk bn v) rk' bn' = alGet2 cursor rk' bn' := by
  simp [alGet2, alSet2, alGet_alSet_ne _ _ _ _ h]

theorem alGet2_alSet2_ne_branch (cursor : Cursor) (rk bn bn' v : String)
    (h : bn ≠ bn') : alGet2 (alSet2 cursor rk bn v) rk bn' = alGet2 cursor rk bn' := by
  simp only [alGet2, alSet2, alGet_alSet_self, alGet_alSet_ne _ _ _ _ h]
  cases halGet : alGet cursor rk with
  | none => simp [halGet, alGet]
  | some m => simp [halGet]

theorem alGet_alSet2_other (cursor : Cursor) (rk rk' bn v : String) (h : rk ≠ rk') :
    alGet (alSet2 cursor rk bn v) rk' = alGet cursor rk' :=
  alGet_alSet_ne _ _ _ _ h

/-! ## The delta calculator (`monitor_feed`, lines 532-545)

Inline in the source: a branch absent from `last_commits[repo_key]` takes
all fetched commits (`commits[::-1]`); otherwise a linear scan for the
stored id; found at `index` takes `commits[:index][::-1]`, not found takes
`commits[::-1]`.  The fetched list is newest-first, so the reversal yields
chronological order.  The `Commit` record carries the fields the loop in
`get_commits_for_branch` writes onto each commit dict. -/

structure RawInnerAuthor where
  email : Option String
deriving Repr, DecidableEq

structure RawCommitDetails where
  message : Option String
  author : Option RawInnerAuthor
deriving Repr, DecidableEq

structure RawAuthor where
  login : Option String
  avatar_url : Option String
  html_url : Option String
deriving Repr, DecidableEq

/-- One element of the JSON array returned by the commits endpoint, before
normalization.  Every field is optional because the payload is untyped
JSON; `utils/types.py` documents the expected shape but nothing enforces
it at runtime. -/
structure RawCommit where
  sha : Option String
  commit : Option RawCommitDetails
  author : Option RawAuthor
  html_url : Option String
deriving Repr, DecidableEq

/-- A normalized commit, as produced by the mutation loop at the end of
`get_commits_for_branch`. -/
structure Commit where
  id : String
  message : String
  author_username : String
  avatar_url : Option String
  url : String
  repository : String
  branch : String
  author : Option RawAuthor
deriving Repr, DecidableEq

/-- The scan `for i, commit in enumerate(commits): if commit["id"] == last_commit_id`:
index of the first commit whose id equals the stored cursor id. -/
def findCursorIndex (lastId : String) : List Commit → Option Nat
  | [] => none
  | c :: rest =>
    if c.id = lastId then some 0
    else (findCursorIndex lastId rest).map (· + 1)

/-- The delta computation of `monitor_feed` (lines 532-545), as a function of
the stored cursor entry for the branch and the fetched (newest-first) list. -/
def computeNew (stored : Option String) (commits : List Commit) : List Commit :=
  match stored with
  | none => commits.reverse
  | some lastId =>
    match findCursorIndex lastId commits with
    | none => commits.reverse
    | some i => (commits.take i).reverse

/-! ## Bounded retry (`request_with_retry`, lines 184-231)

`requests.request` is the transport collaborator; an *attempt oracle* gives
the outcome of each attempt.  `ConnectionError`/`Timeout` are retried up to
`MAX_RETRIES` attempts with backoff (the sleeps are irrelevant to any claim
and are not recorded); any other `RequestException` returns `None`
immediately; a received response (whatever its status) is returned at once.
The pair returned by `requestAttemptsFrom` is (result, attempts made). -/

inductive AttemptOutcome (ρ : Type) where
  | response (r : ρ)
  | connectionError
  | timeout
  | requestException

def requestAttemptsFrom {ρ : Type} (oracle : Nat → AttemptOutcome ρ) :
    Nat → Nat → Option ρ × Nat
  | _, 0 => (none, 0)
  | attempt, remaining + 1 =>
    match oracle attempt with
    | .response r => (some r, 1)
    | .connectionError =>
      if remaining = 0 then (none, 1)
      else
        let rec2 := requestAttemptsFrom oracle (attempt + 1) remaining
        (rec2.1, rec2.2 + 1)
    | .timeout =>
      if remaining = 0 then (none, 1)
      else
        let rec2 := requestAttemptsFrom oracle (attempt + 1) remaining
        (rec2.1, rec2.2 + 1)
    | .requestException => (none, 1)

/-- `request_with_retry`: the response, or `None` after exhausting the retry
budget or hitting a non-retryable error. -/
def request_with_retry {ρ : Type} (oracle : Nat → AttemptOutcome ρ) : Option ρ :=
  (requestAttemptsFrom oracle 0 MAX_RETRIES).1

/-- Number of transport attempts `request_with_retry` consumes. -/
def requestAttemptCount {ρ : Type} (oracle : Nat → AttemptOutcome ρ) : Nat :=
  (requestAttemptsFrom oracle 0 MAX_RETRIES).2

/-! ## Commit fetching and normalization (lines 234-335)

`response.json()` may raise (`JSONDecodeError`) — embedded as `body = none`.
A dictionary subscript `d["k"]` on a missing key raises `KeyError`; `.get`
returns `None`.  Neither `get_commits_for_branch` nor any caller catches
these exceptions, so they surface as `Except.error`. -/

/-- `d["k"]`: subscript access, raising on a missing key. -/
def okOr {α : Type} : Option α → String → Except String α
  | some a, _ => .ok a
  | none, e => .error e

/-- `get_avatar_url` fallback path: `commit["commit"]["author"].get("email")`
(both subscripts can raise), Gravatar from the md5 of the normalized email;
an absent or empty email yields `None`. -/
def gravatarFallback (md5hex : String → String) (c : RawCommit) :
    Except String (Option String) := do
  let details ← okOr c.commit "KeyError: commit"
  let iauthor ← okOr details.author "KeyError: author"
  match iauthor.email with
  | some e =>
    if e = "" then .ok none
    else .ok (some ("https://www.gravatar.com/avatar/" ++ md5hex (e.trim.toLower)
        ++ "?d=identicon"))
  | none => .ok none

/-- `get_avatar_url`: prefer the GitHub author avatar (present and truthy),
else the Gravatar fallback. -/
def get_avatar_url (md5hex : String → String) (c : RawCommit) :
    Except String (Option String) :=
  match c.author with
  | some a =>
    match a.avatar_url with
    | some u => if u = "" then gravatarFallback md5hex c else .ok (some u)
    | none => gravatarFallback md5hex c
  | none => gravatarFallback md5hex c

/-- The normalization loop body of `get_commits_for_branch` (lines 325-334):
`id`, `message`, `author_username` (with `"unknown"` only when the `author`
key is absent/falsy — a present author missing `login` raises), `avatar_url`,
`url`, `repository`, `branch`. -/
def normalize_commit (md5hex : String → String) (repo_key branch_name : String)
    (rc : RawCommit) : Except String Commit := do
  let sha ← okOr rc.sha "KeyError: sha"
  let details ← okOr rc.commit "KeyError: commit"
  let message ← okOr details.message "KeyError: message"
  let author_username ←
    match rc.author with
    | some a => okOr a.login "KeyError: login"
    | none => .ok "unknown"
  let avatar ← get_avatar_url md5hex rc
  let url ← okOr rc.html_url "KeyError: html_url"
  .ok { id := sha, message := message, author_username := author_username,
        avatar_url := avatar, url := url, repository := repo_key,
        branch := branch_name, author := rc.author }

/-- An HTTP response for the commits endpoint: status, `.text`, and the
result of `.json()` parsed as a list of commit records (`none` when the body
is not such a list and `.json()`/iteration raises). -/
structure CommitsResponse where
  status : Nat
  text : String
  body : Option (List RawCommit)
deriving Repr, DecidableEq

/-- `get_commits_for_branch` (lines 291-335): retries exhausted → `[]`;
non-OK status → `[]` (both logged, not raised); OK status with a body that
fails to parse → uncaught `JSONDecodeError`; otherwise normalize each record
(each may raise `KeyError`). -/
def get_commits_for_branch (resp : Option CommitsResponse)
    (md5hex : String → String) (repo_key branch_name : String) :
    Except String (List Commit) :=
  match resp with
  | none => .ok []
  | some r =>
    if r.status ≠ STATUS_OK then .ok []
    else
      match r.body with
      | none => .error "JSONDecodeError"
      | some raws => raws.mapM (normalize_commit md5hex repo_key branch_name)

/-- An HTTP response for the branches endpoint; `body` holds the branch
names (`branch["name"]` of each record). -/
structure BranchesResponse where
  status : Nat
  text : String
  body : List String
deriving Repr, DecidableEq

/-- `get_branches` (lines 260-288): retries exhausted or non-OK status →
`[]` (logged); otherwise the branch list. -/
def get_branches (resp : Option BranchesResponse) : List String :=
  match resp with
  | none => []
  | some r => if r.status ≠ STATUS_OK then [] else r.body

/-! ## Cursor persistence (`load_last_commits` / `save_last_commits`, lines 338-362)

`save_last_commits` is `LAST_COMMITS_FILE.open("w")` followed by
`json.dump(last_commits, f, indent=2)`.  Opening with mode `"w"` truncates
the file in place *before* the dump writes, so a concurrent reader of the
file can observe, in order: the previous content, the truncated (empty)
file, and only then the complete new serialization.  There is no
write-to-temporary-and-rename step.  `saveObservableStates` lists these
observable file contents in order (the dump may additionally expose proper
prefixes of the final content; the truncated state alone already decides
the atomicity claim). -/

/-- Lower-case hex digit. -/
def hexDigit (n : Nat) : Char :=
  if n < 10 then Char.ofNat (48 + n) else Char.ofNat (87 + n)

/-- Four-digit lower-case hex, for `\uXXXX` escapes. -/
def hex4 (n : Nat) : String :=
  String.mk [hexDigit (n / 4096 % 16), hexDigit (n / 256 % 16),
             hexDigit (n / 16 % 16), hexDigit (n % 16)]

/-- JSON string-character escaping as `json.dump` performs it with the
default `ensure_ascii=True`: short escapes for the usual control characters,
`\uXXXX` for other controls and all non-ASCII (surrogate pairs above the
BMP). -/
def jsonEscapeChar (c : Char) : String :=
  if c = '"' then "\\\""
  else if c = '\\' then "\\\\"
  else if c = Char.ofNat 10 then "\\n"
  else if c = Char.ofNat 9 then "\\t"
  else if c = Char.ofNat 13 then "\\r"
  else if c = Char.ofNat 8 then "\\b"
  else if c = Char.ofNat 12 then "\\f"
  else if c.toNat < 32 then "\\u" ++ hex4 c.toNat
  else if c.toNat ≤ 127 then String.singleton c
  else if c.toNat ≤ 65535 then "\\u" ++ hex4 c.toNat
  else
    let v := c.toNat - 65536
    "\\u" ++ hex4 (55296 + v / 1024) ++ "\\u" ++ hex4 (56320 + v % 1024)

def jsonString (s : String) : String :=
  "\"" ++ String.join (s.toList.map jsonEscapeChar) ++ "\""

/-- `json.dump(..., indent=2)` of one inner branch map. -/
def serializeBranchCursors (m : BranchCursors) : String :=
  match m with
  | [] => "\x7b\x7d"
  | _ =>
    "\x7b\n"
      ++ String.intercalate ",\n"
          (m.map (fun p => "    " ++ jsonString p.1 ++ ": " ++ jsonString p.2))
      ++ "\n  \x7d"

/-- `json.dump(last_commits, f, indent=2)`: the full durable representation
written by `save_last_commits`. -/
def serializeCursor (cursor : Cursor) : String :=
  match cursor with
  | [] => "\x7b\x7d"
  | _ =>
    "\x7b\n"
      ++ String.intercalate ",\n"
          (cursor.map (fun p => "  " ++ jsonString p.1 ++ ": " ++ serializeBranchCursors p.2))
      ++ "\n\x7d"

/-- The sequence of file contents observable by a concurrent reader across
one `save_last_commits` call, starting from `previous` content:
pre-open, post-truncation (mode `"w"`), post-dump. -/
def saveObservableStates (previous : String) (cursor : Cursor) : List String :=
  [previous, "", serializeCursor cursor]

/-- The atomicity property asserted by the specification: every state a
concurrent reader can observe is either the old or the new full content. -/
def saveIsAtomic (previous : String) (cursor : Cursor) : Bool :=
  (saveObservableStates previous cursor).all
    (fun s => s == previous || s == serializeCursor cursor)

/-! ## Notification payload and dispatch (`send_aggregated_to_discord`, lines 391-497) -/

/-- The single embed of the outgoing webhook payload
(`{"embeds": [embed]}`). -/
structure Embed where
  title : String
  url : String
  description : String
  author_name : String
  author_url : String
  author_icon_url : String
  footer_text : String
  timestamp : String
deriving Repr, DecidableEq

/-- One description line (lines 441-449): linked 7-character id prefix, the
message truncated to `TRUNCATE_LENGTH` with an ellipsis when longer than
`MAX_MESSAGE_LENGTH`, and the author username. -/
def commit_line (c : Commit) : String :=
  let message :=
    if c.message.length ≤ MAX_MESSAGE_LENGTH then c.message
    else c.message.take TRUNCATE_LENGTH ++ "..."
  "[`" ++ c.id.take 7 ++ "`](" ++ c.url ++ ") " ++ message ++ " - " ++ c.author_username

/-- The pure payload construction of `send_aggregated_to_discord`
(lines 406-465), on the non-empty commit list `first :: rest`.  With exactly
one commit the primary link is that commit's URL; otherwise it is the
compare link from `old_commit_id` to the id of the last (newest,
chronologically) commit. -/
def build_embed (first : Commit) (rest : List Commit)
    (repo branch_name old_commit_id timestamp : String) : Embed :=
  let commits := first :: rest
  let count := commits.length
  let commit_url :=
    if count = 1 then first.url
    else "https://github.com/" ++ repo ++ "/compare/" ++ old_commit_id ++ "..."
        ++ (commits.getLast (List.cons_ne_nil first rest)).id
  let title := "[" ++ repo ++ ":" ++ branch_name ++ "] " ++ toString count ++ " new "
      ++ (if count = 1 then "commit" else "commits")
  { title := title
    url := commit_url
    description := String.intercalate "\n" (commits.map commit_line)
    author_name := first.author_username
    author_url := ((first.author.bind (fun a => a.html_url)).getD "")
    author_icon_url := first.avatar_url.getD ""
    footer_text := "Powered by mdrxy/commit-to-discord"
    timestamp := timestamp }

/-- The webhook POST response (`response.status_code`, `response.text`). -/
structure WebhookResponse where
  status : Nat
  text : String
deriving Repr, DecidableEq

/-! ## The reconciliation loop (`monitor_feed` and `initialize_last_commits`)

The environment packages every external collaborator: the configured
repository keys, the attempt oracles of the three HTTP requests, the webhook
URL, whether the state file is writable, the wall-clock timestamp used in
the embed, and the md5 collaborator.  Observable side effects are recorded
as `Event`s (a webhook dispatch attempt with the response status it got, and
a successful state-file write). -/

structure Env where
  repos : List String
  branchAttempts : String → Nat → AttemptOutcome BranchesResponse
  commitAttempts : String → String → Nat → AttemptOutcome CommitsResponse
  webhookAttempts : Embed → Nat → AttemptOutcome WebhookResponse
  webhookUrl : String
  writable : Bool
  timestamp : String
  md5hex : String → String

inductive Event where
  | dispatched (repo branch old_commit_id : String) (payload : Embed)
      (respStatus : Option Nat)
  | savedFile (cursor : Cursor)
deriving Repr, DecidableEq

def Event.isDispatch : Event → Bool
  | .dispatched _ _ _ _ _ => true
  | .savedFile _ => false

/-- `get_branches(repo)` with its `request_with_retry` transport. -/
def fetch_branches (env : Env) (repo_key : String) : List String :=
  get_branches (request_with_retry (env.branchAttempts repo_key))

/-- `get_commits_for_branch(repo, branch_name)` with its
`request_with_retry` transport. -/
def fetch_commits (env : Env) (repo_key branch_name : String) :
    Except String (List Commit) :=
  get_commits_for_branch (request_with_retry (env.commitAttempts repo_key branch_name))
    env.md5hex repo_key branch_name

/-- `save_last_commits` (lines 353-362): the function body contains no
exception handler, so an unwritable state file raises an uncaught `OSError`
out of the call. -/
def save_last_commits_m (env : Env) (cursor : Cursor) : Except String Event :=
  if env.writable then .ok (.savedFile cursor)
  else .error "OSError: state file not writable"

/-- `send_aggregated_to_discord` (lines 391-497): builds the payload, checks
the webhook URL, POSTs through `request_with_retry`, and only *logs* the
outcome (success on `STATUS_NO_CONTENT`, error otherwise).  It returns
nothing to its caller: the recorded event carries the status the caller
never sees. -/
def send_aggregated_to_discord (env : Env) (first : Commit) (rest : List Commit)
    (repo branch_name old_commit_id : String) : List Event :=
  let embed := build_embed first rest repo branch_name old_commit_id env.timestamp
  if env.webhookUrl = "" then []
  else
    let resp := request_with_retry (env.webhookAttempts embed)
    [.dispatched repo branch_name old_commit_id embed (resp.map (fun r => r.status))]

/-- The per-branch body of the polling loop (`monitor_feed` lines 513-556):
blacklist check; fetch; skip on empty; delta; if non-empty, dispatch, then
*unconditionally* advance the in-memory cursor to the newest fetched commit
id and save. -/
def processBranch (env : Env) (bp : List (String × String)) (rk bn : String)
    (cursor : Cursor) : Except String (Cursor × List Event) := do
  if is_branch_blacklisted rk bn bp then return (cursor, [])
  let commits ← fetch_commits env rk bn
  if commits.isEmpty then return (cursor, [])
  match computeNew (alGet2 cursor rk bn) commits with
  | [] => return (cursor, [])
  | c :: cs =>
    let oldId := (alGet2 cursor rk bn).getD ""
    let evs := send_aggregated_to_discord env c cs rk bn oldId
    let cursor1 := alSet2 cursor rk bn ((c :: cs).getLast (List.cons_ne_nil c cs)).id
    let sev ← save_last_commits_m env cursor1
    return (cursor1, evs ++ [sev])

/-- The branch loop of one repository pass. -/
def processBranches (env : Env) (bp : List (String × String)) (rk : String) :
    List String → Cursor → Except String (Cursor × List Event)
  | [], cursor => .ok (cursor, [])
  | bn :: rest, cursor => do
    let r1 ← processBranch env bp rk bn cursor
    let r2 ← processBranches env bp rk rest r1.1
    .ok (r2.1, r1.2 ++ r2.2)

/-- One repository pass (lines 507-556): ensure the repository key exists in
the cursor mapping, fetch the branch list, run the branch loop. -/
def processRepo (env : Env) (bp : List (String × String)) (rk : String)
    (cursor : Cursor) : Except String (Cursor × List Event) :=
  let cursor1 := if (alGet cursor rk).isNone then alSet cursor rk [] else cursor
  processBranches env bp rk (fetch_branches env rk) cursor1

/-- Loop-level actions, for reasoning about when the shutdown flag is
consulted relative to repository processing and sleeping. -/
inductive LoopStep where
  | polledFlag (value : Bool)
  | processedRepo (rk : String) (events : List Event)
  | sleptFullInterval
  | finalSaved
deriving Repr, DecidableEq

def LoopStep.isPoll : LoopStep → Bool
  | .polledFlag _ => true
  | _ => false

/-- The repository loop of one polling cycle.  It consults nothing but the
environment: in the source, `shutdown_event` is *not* checked anywhere
inside the `for repo in REPOSITORIES` loop. -/
def pollCycle (env : Env) (bp : List (String × String)) :
    List String → Cursor → Except String (Cursor × List LoopStep)
  | [], cursor => .ok (cursor, [])
  | rk :: rest, cursor => do
    let r1 ← processRepo env bp rk cursor
    let r2 ← pollCycle env bp rest r1.1
    .ok (r2.1, .processedRepo rk r1.2 :: r2.2)

/-- `monitor_feed`'s `while not shutdown_event.is_set()` loop (lines
505-562).  `flag n` is the value of `shutdown_event.is_set()` at its n-th
poll — the *only* point at which the flag is read.  After a cycle the loop
executes `time.sleep(POLL_INTERVAL_SECONDS)`: a plain sleep for the full
interval (the `SIGTERM`/`SIGINT` handler raises no exception, so since
PEP 475 the sleep resumes and completes even when a signal arrives during
it), recorded as `sleptFullInterval`.  On observing the flag the loop saves
state once more and exits.  `fuel` bounds the number of iterations
unrolled; an `.error` is an uncaught exception terminating the process. -/
def monitor_feed (env : Env) (bp : List (String × String)) (flag : Nat → Bool) :
    Nat → Nat → Cursor → Except String (Cursor × List LoopStep)
  | 0, _, cursor => .ok (cursor, [])
  | fuel + 1, n, cursor =>
    if flag n then do
      let _ ← save_last_commits_m env cursor
      .ok (cursor, [.polledFlag true, .finalSaved])
    else do
      let r1 ← pollCycle env bp env.repos cursor
      let r2 ← monitor_feed env bp flag fuel (n + 1) r1.1
      .ok (r2.1, (.polledFlag false :: r1.2) ++ (.sleptFullInterval :: r2.2))

/-! ## Initialization (`initialize_last_commits`, lines 365-388)

For each configured repository with no cursor entry: create the entry,
fetch the branch list, and seed each branch with a non-empty commit fetch
to its newest commit id.  No dispatch happens anywhere on this path; a
single save runs at the end when anything was seeded. -/

def initBranches (env : Env) (rk : String) :
    List String → Cursor → Bool → Except String (Cursor × Bool)
  | [], cursor, upd => .ok (cursor, upd)
  | bn :: rest, cursor, upd => do
    let commits ← fetch_commits env rk bn
    match commits with
    | [] => initBranches env rk rest cursor upd
    | c :: _ => initBranches env rk rest (alSet2 cursor rk bn c.id) true

def initRepos (env : Env) :
    List String → Cursor → Bool → Except String (Cursor × Bool)
  | [], cursor, upd => .ok (cursor, upd)
  | rk :: rest, cursor, upd =>
    if (alGet cursor rk).isSome then initRepos env rest cursor upd
    else do
      let r1 ← initBranches env rk (fetch_branches env rk) (alSet cursor rk []) upd
      initRepos env rest r1.1 r1.2

/-- `initialize_last_commits`, starting from the loaded cursor state
`cursor0`.  Returns the seeded cursor and the recorded events (at most the
one final save; never a dispatch). -/
def init_last_commits (env : Env) (cursor0 : Cursor) :
    Except String (Cursor × List Event) := do
  let r ← initRepos env env.repos cursor0 false
  if r.2 then do
    let ev ← save_last_commits_m env r.1
    .ok (r.1, [ev])
  else .ok (r.1, [])

/-! ## Concrete fixtures

A well-formed raw commit record and its normalization, plus environment
builders used by the concrete witnesses and counterexamples below. -/

/-- A well-formed raw commit record for id `sha`, authored by `alice` with a
source-provided avatar. -/
def rawC (sha : String) : RawCommit :=
  { sha := some sha
    commit := some { message := some ("msg " ++ sha)
                     author := some { email := some "dev@example.com" } }
    author := some { login := some "alice"
                     avatar_url := some "https://avatars.example/alice"
                     html_url := some "https://github.com/alice" }
    html_url := some ("https://github.com/a/b/commit/" ++ sha) }

/-- The normalization of `rawC sha` fetched for `repo_key`/`branch_name`. -/
def mkCommit (repo_key branch_name sha : String) : Commit :=
  { id := sha
    message := "msg " ++ sha
    author_username := "alice"
    avatar_url := some "https://avatars.example/alice"
    url := "https://github.com/a/b/commit/" ++ sha
    repository := repo_key
    branch := branch_name
    author := some { login := some "alice"
                     avatar_url := some "https://avatars.example/alice"
                     html_url := some "https://github.com/alice" } }

/-- An environment whose HTTP collaborators answer every request on the
first attempt: branch listings and commit listings succeed with status 200,
the webhook POST answers with `dispatchStatus`. -/
def mkEnv (repos : List String) (branchNames : String → List String)
    (rawBodies : String → String → List RawCommit)
    (dispatchStatus : Nat) (writable : Bool) : Env :=
  { repos := repos
    branchAttempts := fun rk _ =>
      .response { status := STATUS_OK, text := "", body := branchNames rk }
    commitAttempts := fun rk bn _ =>
      .response { status := STATUS_OK, text := "", body := some (rawBodies rk bn) }
    webhookAttempts := fun _ _ => .response { status := dispatchStatus, text := "" }
    webhookUrl := "https://discord.example/webhook"
    writable := writable
    timestamp := "2026-01-01T00:00:00+00:00"
    md5hex := fun _ => "d41d8cd98f00b204e9800998ecf8427e" }

/-! ## Support lemmas for the delta calculator -/

theorem computeNew_nil (stored : Option String) : computeNew stored [] = [] := by
  cases stored <;> simp [computeNew, findCursorIndex]

theorem findCursorIndex_eq_some (lastId : String) (commits : List Commit) (i : Nat)
    (c : Commit) (hi : commits[i]? = some c) (hc : c.id = lastId)
    (hfirst : ∀ cj ∈ commits.take i, cj.id ≠ lastId) :
    findCursorIndex lastId commits = some i := by
  induction commits generalizing i with
  | nil => simp at hi
  | cons c0 rest ih =>
    cases i with
    | zero =>
      simp only [List.getElem?_cons_zero, Option.some.injEq] at hi
      subst hi
      simp [findCursorIndex, hc]
    | succ i' =>
      have h0 : c0.id ≠ lastId := by
        apply hfirst
        simp [List.take_succ_cons]
      have hi' : rest[i']? = some c := by simpa using hi
      have hfirst' : ∀ cj ∈ rest.take i', cj.id ≠ lastId := by
        intro cj hcj
        apply hfirst
        simp [List.take_succ_cons, hcj]
      simp [findCursorIndex, h0, ih i' hi' hfirst']

theorem findCursorIndex_eq_none (lastId : String) (commits : List Commit)
    (habs : ∀ cj ∈ commits, cj.id ≠ lastId) :
    findCursorIndex lastId commits = none := by
  induction commits with
  | nil => rfl
  | cons c0 rest ih =>
    have h0 : c0.id ≠ lastId := habs c0 (by simp)
    have : ∀ cj ∈ rest, cj.id ≠ lastId := fun cj hcj => habs cj (by simp [hcj])
    simp [findCursorIndex, h0, ih this]

/-! ## Claim C2 -/

/-- **C2** (confirmed).  For every branch with an established cursor whose id
occurs in the fetched (newest-first) commit list first at position `i`, the
delta computation returns exactly the commits at positions `0..i-1`,
reversed to chronological (oldest-first) order. -/
theorem computeNew_cursor_found (lastId : String) (commits : List Commit) (i : Nat)
    (c : Commit) (hi : commits[i]? = some c) (hc : c.id = lastId)
    (hfirst : ∀ cj ∈ commits.take i, cj.id ≠ lastId) :
    computeNew (some lastId) commits = (commits.take i).reverse := by
  simp [computeNew, findCursorIndex_eq_some lastId commits i c hi hc hfirst]

/-- Fetched list for the witness of C2: `[c5, c4, c3, c2, c1]`, newest
first. -/
def demoFetch5 : List Commit :=
  [mkCommit "a/b" "main" "c5", mkCommit "a/b" "main" "c4", mkCommit "a/b" "main" "c3",
   mkCommit "a/b" "main" "c2", mkCommit "a/b" "main" "c1"]

theorem computeNew_cursor_found_witness :
    computeNew (some "c1") demoFetch5 = (demoFetch5.take 4).reverse :=
  computeNew_cursor_found "c1" demoFetch5 4 (mkCommit "a/b" "main" "c1")
    (by decide) (by decide) (by decide)

/-! ## Claim C3 -/

/-- **C3** (confirmed).  For every branch with an established cursor whose id
does not occur anywhere in the non-empty fetched commit list, the delta
computation returns the entire fetched list reversed to chronological order
(force-push recovery).  The embedding is a total function, so there is no
crash on this path. -/
theorem computeNew_cursor_absent (lastId : String) (commits : List Commit)
    (hne : commits ≠ []) (habs : ∀ cj ∈ commits, cj.id ≠ lastId) :
    computeNew (some lastId) commits = commits.reverse := by
  simp [computeNew, findCursorIndex_eq_none lastId commits habs]

/-- Fetched list for the witness of C3: `[c7, c6]`, newest first. -/
def demoFetch2 : List Commit :=
  [mkCommit "a/b" "main" "c7", mkCommit "a/b" "main" "c6"]

theorem computeNew_cursor_absent_witness :
    computeNew (some "zzz") demoFetch2 = demoFetch2.reverse :=
  computeNew_cursor_absent "zzz" demoFetch2 (by decide) (by decide)

/-! ## Claim C8 -/

theorem patternsFor_mem (bp : List (String × String)) (k p : String)
    (h : (k, p) ∈ bp) : p ∈ patternsFor bp k := by
  unfold patternsFor
  exact List.mem_map.mpr ⟨(k, p), List.mem_filter.mpr ⟨h, by simp⟩, rfl⟩

/-- **C8** (confirmed).  A branch matching any global blacklist pattern
(checked first in `is_branch_blacklisted`) or any pattern specific to the
repository (checked second) is excluded: the per-branch loop body returns
immediately with no events and an unchanged cursor, so the branch is never
passed to delta computation or notification.  Since `rk` is universally
quantified and the global disjunct does not mention it, a global pattern
excludes the matching branch for every repository. -/
theorem blacklisted_branch_excluded (bp : List (String × String)) (p bn rk : String)
    (hmatch : fnmatch bn p = true)
    (hp : ("global", p) ∈ bp ∨ (rk, p) ∈ bp) :
    is_branch_blacklisted rk bn bp = true ∧
      ∀ env cursor, processBranch env bp rk bn cursor = .ok (cursor, []) := by
  have hbl : is_branch_blacklisted rk bn bp = true := by
    unfold is_branch_blacklisted
    cases hp with
    | inl h =>
      have : (patternsFor bp "global").any (fun pat => fnmatch bn pat) = true :=
        List.any_eq_true.mpr ⟨p, patternsFor_mem bp "global" p h, hmatch⟩
      simp [this]
    | inr h =>
      have : (patternsFor bp rk).any (fun pat => fnmatch bn pat) = true :=
        List.any_eq_true.mpr ⟨p, patternsFor_mem bp rk p h, hmatch⟩
      simp [this]
  refine ⟨hbl, fun env cursor => ?_⟩
  simp [processBranch, hbl, pure, Except.pure]

/-- Blacklist for the C8 witness: one global pattern. -/
def bpGlobalRelease : List (String × String) := [("global", "release/*")]

/-- Environment for the C8 witness (its contents are irrelevant: the branch
is skipped before any collaborator is consulted). -/
def envC8 : Env := mkEnv ["x/y"] (fun _ => ["release/1.0"]) (fun _ _ => []) 204 true

theorem blacklisted_branch_excluded_witness :
    is_branch_blacklisted "x/y" "release/1.0" bpGlobalRelease = true ∧
      processBranch envC8 bpGlobalRelease "x/y" "release/1.0" [] = .ok ([], []) :=
  ⟨(blacklisted_branch_excluded bpGlobalRelease "release/*" "release/1.0" "x/y"
      (by decide) (Or.inl (by simp [bpGlobalRelease]))).1,
   (blacklisted_branch_excluded bpGlobalRelease "release/*" "release/1.0" "x/y"
      (by decide) (Or.inl (by simp [bpGlobalRelease]))).2 envC8 []⟩

/-! ## Claim C5 -/

/-- **C5 counterexample**.  The claim asserts that no partial or interleaved
write is observable by a concurrent reader.  Starting from previous file
content `"\x7b\x7d"` (an empty JSON object) and saving one cursor entry, the
observable states include the truncated empty file — neither the old nor the
new content — because `save_last_commits` opens the state file with mode
`"w"` (truncate in place) instead of writing a temporary file and renaming
it over the old one. -/
theorem save_atomicity_counterexample :
    saveIsAtomic "\x7b\x7d" [("a/b", [("main", "c1")])] = false := by decide

/-- **C5 amended** (proved).  Each call to `save_last_commits` rewrites the
whole file: the final observable content is the complete serialization of
the cursor mapping, independent of the previous content (so repeated calls
are safe and deterministic).  But the overwrite is not atomic: the
truncated empty file is observable by a concurrent reader mid-save. -/
theorem save_full_rewrite_not_atomic (previous : String) (cursor : Cursor) :
    (saveObservableStates previous cursor).getLast? = some (serializeCursor cursor)
      ∧ "" ∈ saveObservableStates previous cursor := by
  simp [saveObservableStates]

/-! ## Claim C1 -/

/-- Environment with one repository, one branch, two fetched commits, a
stored cursor at the older one, and a webhook that answers every POST with
status 500 (dispatch failure — success would be `STATUS_NO_CONTENT`). -/
def envDispatchFail : Env :=
  mkEnv ["a/b"] (fun _ => ["main"]) (fun _ _ => [rawC "c2", rawC "c1"]) 500 true

def storedMainC1 : Cursor := [("a/b", [("main", "c1")])]

/-- **C1 counterexample**.  The claim says the cursor is advanced and
persisted *only* when dispatch succeeds with the no-content acknowledgement.
On this input the webhook answers 500 — a failure — yet the cycle advances
the stored cursor for `a/b`/`main` from `c1` to `c2` and persists it
(`savedFile` event): `send_aggregated_to_discord` returns nothing, and
`monitor_feed` updates and saves unconditionally after the dispatch attempt
(lines 547-556), so the commit `c2` will never be re-attempted. -/
theorem cursor_advanced_despite_failed_dispatch :
    pollCycle envDispatchFail [] ["a/b"] storedMainC1
      = .ok ([("a/b", [("main", "c2")])],
          [.processedRepo "a/b"
            [.dispatched "a/b" "main" "c1"
              (build_embed (mkCommit "a/b" "main" "c2") [] "a/b" "main" "c1"
                "2026-01-01T00:00:00+00:00") (some 500),
             .savedFile [("a/b", [("main", "c2")])]]])
      ∧ (500 : Nat) ≠ STATUS_NO_CONTENT :=
  ⟨rfl, by decide⟩

/-- **C1 amended** (proved).  For every branch whose computed delta is
non-empty, the cursor is advanced to the newest fetched commit id and
persisted immediately after the dispatch attempt, *regardless of the
dispatch outcome*: the conclusion holds for every `env.webhookAttempts`, so
a failing dispatch (any status, or retries exhausted) still advances the
cursor, and failed batches are only logged, never re-attempted
(at-most-once delivery). -/
theorem cursor_advance_ignores_dispatch_outcome (env : Env)
    (bp : List (String × String)) (rk bn : String) (cursor : Cursor)
    (commits : List Commit) (c : Commit) (cs : List Commit)
    (hbl : is_branch_blacklisted rk bn bp = false)
    (hfetch : fetch_commits env rk bn = .ok commits)
    (hdelta : computeNew (alGet2 cursor rk bn) commits = c :: cs)
    (hw : env.writable = true) :
    processBranch env bp rk bn cursor
      = .ok (alSet2 cursor rk bn ((c :: cs).getLast (List.cons_ne_nil c cs)).id,
          send_aggregated_to_discord env c cs rk bn ((alGet2 cursor rk bn).getD "")
            ++ [.savedFile
                (alSet2 cursor rk bn ((c :: cs).getLast (List.cons_ne_nil c cs)).id)]) := by
  cases commits with
  | nil =>
    rw [computeNew_nil] at hdelta
    exact absurd hdelta (by simp)
  | cons c0 rest =>
    simp [processBranch, bind, Except.bind, pure, Except.pure, hbl, hfetch, hdelta,
      save_last_commits_m, hw]

theorem cursor_advance_ignores_dispatch_outcome_witness :
    processBranch envDispatchFail [] "a/b" "main" storedMainC1
      = .ok ([("a/b", [("main", "c2")])],
          [.dispatched "a/b" "main" "c1"
            (build_embed (mkCommit "a/b" "main" "c2") [] "a/b" "main" "c1"
              "2026-01-01T00:00:00+00:00") (some 500),
           .savedFile [("a/b", [("main", "c2")])]]) :=
  cursor_advance_ignores_dispatch_outcome envDispatchFail [] "a/b" "main" storedMainC1
    [mkCommit "a/b" "main" "c2", mkCommit "a/b" "main" "c1"]
    (mkCommit "a/b" "main" "c2") [] rfl rfl rfl rfl

/-! ## Claim C6 -/

/-- Same world as `envDispatchFail` but with a webhook that succeeds (204)
and an unwritable state file. -/
def envUnwritable : Env :=
  mkEnv ["a/b"] (fun _ => ["main"]) (fun _ _ => [rawC "c2", rawC "c1"]) 204 false

/-- **C6 counterexample**.  The claim says a persistence failure is logged
and not fatal, the process continuing to run.  With an unwritable state
file and one new commit, the `OSError` raised inside `save_last_commits`
propagates uncaught through `monitor_feed` (neither function has an
exception handler around the save), terminating the process: the whole loop
evaluates to the uncaught exception, not to a continuing trace. -/
theorem save_failure_terminates_process_cex :
    monitor_feed envUnwritable [] (fun _ => false) 1 0 storedMainC1
      = .error "OSError: state file not writable" := rfl

/-- **C6 amended** (proved).  For every branch whose delta is non-empty,
when the state file is unwritable the per-branch body raises the uncaught
`OSError` out of the loop (fatal), after the in-memory cursor was already
advanced; there is no logging-and-continue path for a failed save. -/
theorem save_failure_uncaught (env : Env) (bp : List (String × String))
    (rk bn : String) (cursor : Cursor) (commits : List Commit) (c : Commit)
    (cs : List Commit)
    (hbl : is_branch_blacklisted rk bn bp = false)
    (hfetch : fetch_commits env rk bn = .ok commits)
    (hdelta : computeNew (alGet2 cursor rk bn) commits = c :: cs)
    (hw : env.writable = false) :
    processBranch env bp rk bn cursor = .error "OSError: state file not writable" := by
  cases commits with
  | nil =>
    rw [computeNew_nil] at hdelta
    exact absurd hdelta (by simp)
  | cons c0 rest =>
    simp [processBranch, bind, Except.bind, pure, Except.pure, hbl, hfetch, hdelta,
      save_last_commits_m, hw]

theorem save_failure_uncaught_witness :
    processBranch envUnwritable [] "a/b" "main" storedMainC1
      = .error "OSError: state file not writable" :=
  save_failure_uncaught envUnwritable [] "a/b" "main" storedMainC1
    [mkCommit "a/b" "main" "c2", mkCommit "a/b" "main" "c1"]
    (mkCommit "a/b" "main" "c2") [] rfl rfl rfl rfl

/-! ## Claim C7 -/

/-- One repository whose commits endpoint answers 404 on the first attempt. -/
def envBadStatus : Env :=
  { repos := ["a/b"]
    branchAttempts := fun _ _ => .response { status := STATUS_OK, text := "", body := ["main"] }
    commitAttempts := fun _ _ _ => .response { status := 404, text := "Not Found", body := some [] }
    webhookAttempts := fun _ _ => .response { status := STATUS_NO_CONTENT, text := "" }
    webhookUrl := "https://discord.example/webhook"
    writable := true
    timestamp := "2026-01-01T00:00:00+00:00"
    md5hex := fun _ => "d41d8cd98f00b204e9800998ecf8427e" }

/-- One repository whose commits endpoint answers 200 with a body that is
not parseable as a commit list (`response.json()` raises). -/
def envMalformed : Env :=
  { repos := ["a/b"]
    branchAttempts := fun _ _ => .response { status := STATUS_OK, text := "", body := ["main"] }
    commitAttempts := fun _ _ _ => .response { status := STATUS_OK, text := "<html>", body := none }
    webhookAttempts := fun _ _ => .response { status := STATUS_NO_CONTENT, text := "" }
    webhookUrl := "https://discord.example/webhook"
    writable := true
    timestamp := "2026-01-01T00:00:00+00:00"
    md5hex := fun _ => "d41d8cd98f00b204e9800998ecf8427e" }

/-- **C7 counterexample**.  The claim says a malformed payload degrades to
an empty result and in particular never terminates the process.  On a 200
response whose body fails to parse, the `JSONDecodeError` raised by
`response.json()` inside `get_commits_for_branch` is caught nowhere and
terminates the monitor loop — the process — instead of degrading. -/
theorem malformed_payload_terminates_cex :
    monitor_feed envMalformed [] (fun _ => false) 1 0 [] = .error "JSONDecodeError" := rfl

/-- **C7 amended** (proved).  (1) A response received on the first attempt —
whatever its status — ends `request_with_retry` at once (one attempt, no
retry), and (2) a non-retryable `RequestException` short-circuits to `None`
after one attempt without consuming retry budget.  (3) A bad (non-200)
status degrades to an empty commit list and the branch loop continues to
sibling branches unchanged.  (4) But — contrary to the claim's
malformed-payload half — a 200 response whose body is not a commit list
raises an uncaught `JSONDecodeError` out of the per-branch body, which
terminates the process. -/
theorem nontransient_failure_behavior :
    (∀ (ρ : Type) (oracle : Nat → AttemptOutcome ρ) (r : ρ),
        oracle 0 = .response r →
          request_with_retry oracle = some r ∧ requestAttemptCount oracle = 1)
    ∧ (∀ (ρ : Type) (oracle : Nat → AttemptOutcome ρ),
        oracle 0 = .requestException →
          request_with_retry oracle = none ∧ requestAttemptCount oracle = 1)
    ∧ (∀ (env : Env) (rk bn : String) (resp : CommitsResponse),
        request_with_retry (env.commitAttempts rk bn) = some resp →
        resp.status ≠ STATUS_OK →
          fetch_commits env rk bn = .ok []
          ∧ ∀ bp cursor rest, processBranches env bp rk (bn :: rest) cursor
              = processBranches env bp rk rest cursor)
    ∧ (∀ (env : Env) (rk bn : String) (resp : CommitsResponse)
        (bp : List (String × String)) (cursor : Cursor),
        request_with_retry (env.commitAttempts rk bn) = some resp →
        resp.status = STATUS_OK → resp.body = none →
        is_branch_blacklisted rk bn bp = false →
          processBranch env bp rk bn cursor = .error "JSONDecodeError") := by
  refine ⟨?_, ?_, ?_, ?_⟩
  · intro ρ oracle r h
    constructor <;>
      simp [request_with_retry, requestAttemptCount, MAX_RETRIES, requestAttemptsFrom, h]
  · intro ρ oracle h
    constructor <;>
      simp [request_with_retry, requestAttemptCount, MAX_RETRIES, requestAttemptsFrom, h]
  · intro env rk bn resp hresp hstatus
    have hfc : fetch_commits env rk bn = .ok [] := by
      simp [fetch_commits, get_commits_for_branch, hresp, hstatus]
    have hpb : ∀ bp cursor, processBranch env bp rk bn cursor = .ok (cursor, []) := by
      intro bp cursor
      by_cases hbl : is_branch_blacklisted rk bn bp
      · simp [processBranch, hbl, pure, Except.pure]
      · simp [processBranch, hbl, hfc, bind, Except.bind, pure, Except.pure]
    refine ⟨hfc, fun bp cursor rest => ?_⟩
    cases h2 : processBranches env bp rk rest cursor with
    | ok p2 => simp [processBranches, hpb, h2, bind, Except.bind]
    | error e => simp [processBranches, hpb, h2, bind, Except.bind]
  · intro env rk bn resp bp cursor hresp hstatus hbody hbl
    have hfc : fetch_commits env rk bn = .error "JSONDecodeError" := by
      simp [fetch_commits, get_commits_for_branch, hresp, hstatus, hbody]
    simp [processBranch, hbl, hfc, bind, Except.bind, pure, Except.pure]

theorem nontransient_failure_behavior_witness :
    request_with_retry (envBadStatus.commitAttempts "a/b" "main")
        = some { status := 404, text := "Not Found", body := some [] }
      ∧ fetch_commits envBadStatus "a/b" "main" = .ok []
      ∧ processBranch envMalformed [] "a/b" "main" [] = .error "JSONDecodeError" :=
  ⟨(nontransient_failure_behavior.1 CommitsResponse
      (envBadStatus.commitAttempts "a/b" "main") _ rfl).1,
   (nontransient_failure_behavior.2.2.1 envBadStatus "a/b" "main"
      { status := 404, text := "Not Found", body := some [] } rfl (by decide)).1,
   nontransient_failure_behavior.2.2.2 envMalformed "a/b" "main"
      { status := STATUS_OK, text := "<html>", body := none } [] [] rfl rfl rfl rfl⟩

/-! ## Claim C9 -/

/-- Is the step at index `i` of the trace immediately preceded by a poll of
the shutdown flag? -/
def precededByPoll (tr : List LoopStep) : Nat → Bool
  | 0 => false
  | i + 1 =>
    match tr[i]? with
    | some (.polledFlag _) => true
    | _ => false

/-- The polling discipline asserted by the claim, as a trace property: the
cancellation flag is polled at the top of each repository iteration and at
the top of the sleep, i.e. every `processedRepo` step and every
`sleptFullInterval` step is immediately preceded by a `polledFlag` step. -/
def pollsPrecedeWorkAndSleep (tr : List LoopStep) : Bool :=
  (List.range tr.length).all fun i =>
    match tr[i]? with
    | some (.processedRepo _ _) => precededByPoll tr i
    | some .sleptFullInterval => precededByPoll tr i
    | _ => true

/-- Two healthy repositories with no branches; the shutdown flag becomes set
right after the first poll (a signal delivered during the first cycle). -/
def envTwoRepos : Env := mkEnv ["a/a", "b/b"] (fun _ => []) (fun _ _ => []) 204 true

/-- The trace `monitor_feed` produces in `envTwoRepos` with the flag set
from the second poll on. -/
def twoRepoTrace : List LoopStep :=
  [.polledFlag false, .processedRepo "a/a" [], .processedRepo "b/b" [],
   .sleptFullInterval, .polledFlag true, .finalSaved]

/-- **C9 counterexample**.  The claim says the flag is polled at the top of
each repository iteration and at the top of the sleep, and that the sleep
ends at the earlier of the interval elapsing or shutdown.  In the actual
trace the flag is polled exactly once per cycle — at the `while` condition —
so the second repository is processed with no intervening poll, and the
full-interval sleep (`time.sleep`, which completes even when the signal
arrives during it because the handler raises no exception) runs *after* the
flag was already set, before the next poll observes it: the trace violates
the claimed polling discipline. -/
theorem shutdown_polling_claim_cex :
    monitor_feed envTwoRepos [] (fun n => decide (0 < n)) 2 0 []
        = .ok ([("a/a", []), ("b/b", [])], twoRepoTrace)
      ∧ pollsPrecedeWorkAndSleep twoRepoTrace = false :=
  ⟨rfl, by decide⟩

theorem pollCycle_steps_no_poll (env : Env) (bp : List (String × String)) :
    ∀ (repos : List String) (cursor : Cursor) (p : Cursor × List LoopStep),
      pollCycle env bp repos cursor = .ok p → ∀ s ∈ p.2, s.isPoll = false := by
  intro repos
  induction repos with
  | nil =>
    intro cursor p h s hs
    simp [pollCycle] at h
    rw [← h] at hs
    simp at hs
  | cons rk rest ih =>
    intro cursor p h s hs
    cases h1 : processRepo env bp rk cursor with
    | error e => simp [pollCycle, bind, Except.bind, h1] at h
    | ok p1 =>
      cases h2 : pollCycle env bp rest p1.1 with
      | error e => simp [pollCycle, bind, Except.bind, h1, h2] at h
      | ok p2 =>
        simp only [pollCycle, bind, Except.bind, h1, h2, Except.ok.injEq] at h
        rw [← h] at hs
        simp only [List.mem_cons] at hs
        cases hs with
        | inl hhead => rw [hhead]; rfl
        | inr htail => exact ih p1.1 p2 h2 s htail

/-- **C9 amended** (proved).  In each iteration of the loop the shutdown
flag is consulted exactly once, at the top (`while not
shutdown_event.is_set()`), *before* any repository of the cycle: when the
flag reads true the iteration is just the final save and exit; when it
reads false the whole repository cycle runs with no poll among its steps,
followed unconditionally by the full-interval sleep, and only then does the
next iteration poll again.  Shutdown observed mid-cycle therefore takes
effect only at the next cycle boundary. -/
theorem monitor_polls_flag_once_per_cycle (env : Env) (bp : List (String × String))
    (flag : Nat → Bool) (fuel n : Nat) (cursor : Cursor) :
    (flag n = true → env.writable = true →
        monitor_feed env bp flag (fuel + 1) n cursor
          = .ok (cursor, [.polledFlag true, .finalSaved]))
    ∧ (∀ (c1 : Cursor) (steps : List LoopStep) (r2 : Cursor × List LoopStep),
        flag n = false →
        pollCycle env bp env.repos cursor = .ok (c1, steps) →
        monitor_feed env bp flag fuel (n + 1) c1 = .ok r2 →
          (∀ s ∈ steps, s.isPoll = false)
          ∧ monitor_feed env bp flag (fuel + 1) n cursor
              = .ok (r2.1, (.polledFlag false :: steps) ++ (.sleptFullInterval :: r2.2))) := by
  constructor
  · intro hf hw
    simp [monitor_feed, hf, save_last_commits_m, hw, bind, Except.bind, pure, Except.pure]
  · intro c1 steps r2 hf hcyc hrec
    refine ⟨pollCycle_steps_no_poll env bp env.repos cursor (c1, steps) hcyc, ?_⟩
    simp [monitor_feed, hf, hcyc, hrec, bind, Except.bind, pure, Except.pure]

theorem monitor_polls_flag_once_per_cycle_witness :
    (monitor_feed envTwoRepos [] (fun _ => true) 1 0 []
        = .ok ([], [.polledFlag true, .finalSaved]))
    ∧ (∀ s ∈ [LoopStep.processedRepo "a/a" [], LoopStep.processedRepo "b/b" []],
          s.isPoll = false)
    ∧ (monitor_feed envTwoRepos [] (fun _ => false) 1 0 []
        = .ok ([("a/a", []), ("b/b", [])],
            (.polledFlag false
              :: [LoopStep.processedRepo "a/a" [], LoopStep.processedRepo "b/b" []])
              ++ [.sleptFullInterval])) :=
  ⟨(monitor_polls_flag_once_per_cycle envTwoRepos [] (fun _ => true) 0 0 []).1 rfl rfl,
   ((monitor_polls_flag_once_per_cycle envTwoRepos [] (fun _ => false) 0 0 []).2
      [("a/a", []), ("b/b", [])]
      [LoopStep.processedRepo "a/a" [], LoopStep.processedRepo "b/b" []]
      ([("a/a", []), ("b/b", [])], []) rfl rfl rfl).1,
   ((monitor_polls_flag_once_per_cycle envTwoRepos [] (fun _ => false) 0 0 []).2
      [("a/a", []), ("b/b", [])]
      [LoopStep.processedRepo "a/a" [], LoopStep.processedRepo "b/b" []]
      ([("a/a", []), ("b/b", [])], []) rfl rfl rfl).2⟩

/-! ## Claim C10 -/

/-- **C10** (confirmed).  For every branch with no stored cursor entry that
is notified mid-run with two or more new commits: the delta is the whole
fetched list (newest-first head `c0`), the notifier is invoked with the
empty string as the previous cursor id (`last_commits.get(rk, {}).get(bn, "")`),
and the payload's primary link is the comparison URL with an empty left
endpoint, `https://github.com/{rk}/compare/...{c0.id}`. -/
theorem new_branch_notification_uses_empty_cursor (env : Env)
    (bp : List (String × String)) (rk bn : String) (cursor : Cursor)
    (c0 c1 : Commit) (rest : List Commit)
    (hbl : is_branch_blacklisted rk bn bp = false)
    (hcur : alGet2 cursor rk bn = none)
    (hfetch : fetch_commits env rk bn = .ok (c0 :: c1 :: rest))
    (hw : env.writable = true)
    (hurl : ¬ env.webhookUrl = "") :
    ∃ (pl : Embed) (st : Option Nat),
      processBranch env bp rk bn cursor
          = .ok (alSet2 cursor rk bn c0.id,
              [.dispatched rk bn "" pl st, .savedFile (alSet2 cursor rk bn c0.id)])
        ∧ pl.url = "https://github.com/" ++ rk ++ "/compare/..." ++ c0.id := by
  cases hrev : (c0 :: c1 :: rest).reverse with
  | nil => simp at hrev
  | cons first rest' =>
    have hdelta : computeNew none (c0 :: c1 :: rest) = first :: rest' := by
      simpa [computeNew] using hrev
    have hlast : (first :: rest').getLast (List.cons_ne_nil first rest') = c0 := by
      have h1 : (first :: rest').getLast?
          = some ((first :: rest').getLast (List.cons_ne_nil first rest')) :=
        List.getLast?_eq_getLast _ _
      have h2 : (first :: rest').getLast? = some c0 := by
        rw [← hrev, List.getLast?_reverse]
        rfl
      rw [h1] at h2
      exact Option.some.inj h2
    have hlen : (first :: rest').length = rest.length + 2 := by
      rw [← hrev, List.length_reverse]
      simp
    have hrest' : rest' ≠ [] := by
      intro hnil
      rw [hnil] at hlen
      simp only [List.length_cons, List.length_nil] at hlen
      omega
    refine ⟨build_embed first rest' rk bn "" env.timestamp,
      (request_with_retry (env.webhookAttempts
        (build_embed first rest' rk bn "" env.timestamp))).map (fun r => r.status),
      ?_, ?_⟩
    · have hsend : send_aggregated_to_discord env first rest' rk bn ""
          = [.dispatched rk bn "" (build_embed first rest' rk bn "" env.timestamp)
              ((request_with_retry (env.webhookAttempts
                (build_embed first rest' rk bn "" env.timestamp))).map (fun r => r.status))] := by
        simp [send_aggregated_to_discord, hurl]
      simp [processBranch, hbl, hfetch, bind, Except.bind, pure, Except.pure, hdelta,
        hcur, hlast, save_last_commits_m, hw, hsend]
    · simp [build_embed, hlast, hrest']
      rw [String.append_assoc ("https://github.com/" ++ rk) "/compare/" "...",
        show ("/compare/" : String) ++ "..." = "/compare/..." by decide]

/-- A branch `feature` appearing mid-run with two commits and no cursor
entry. -/
def envNewBranch : Env :=
  mkEnv ["a/b"] (fun _ => ["feature"]) (fun _ _ => [rawC "n2", rawC "n1"]) 204 true

theorem new_branch_notification_uses_empty_cursor_witness :
    ∃ (pl : Embed) (st : Option Nat),
      processBranch envNewBranch [] "a/b" "feature" []
          = .ok ([("a/b", [("feature", "n2")])],
              [.dispatched "a/b" "feature" "" pl st,
               .savedFile [("a/b", [("feature", "n2")])]])
        ∧ pl.url = "https://github.com/" ++ "a/b" ++ "/compare/..." ++ "n2" :=
  new_branch_notification_uses_empty_cursor envNewBranch [] "a/b" "feature" []
    (mkCommit "a/b" "feature" "n2") (mkCommit "a/b" "feature" "n1") []
    rfl rfl rfl rfl (by decide)

/-! ## Claim C4: support lemmas about initialization -/

theorem alGet2_isSome (cursor : Cursor) (rk bn v : String)
    (h : alGet2 cursor rk bn = some v) : (alGet cursor rk).isSome := by
  unfold alGet2 at h
  cases hk : alGet cursor rk with
  | none => rw [hk] at h; simp at h
  | some m => simp

theorem initBranches_ok (env : Env) (rk : String)
    (H : ∀ bn, ∃ l, fetch_commits env rk bn = .ok l) :
    ∀ (bns : List String) (cursor : Cursor) (upd : Bool),
      ∃ p, initBranches env rk bns cursor upd = .ok p := by
  intro bns
  induction bns with
  | nil => intro cursor upd; exact ⟨(cursor, upd), rfl⟩
  | cons bn rest ih =>
    intro cursor upd
    obtain ⟨l, hl⟩ := H bn
    cases l with
    | nil =>
      obtain ⟨p, hp⟩ := ih cursor upd
      exact ⟨p, by simp [initBranches, bind, Except.bind, hl, hp]⟩
    | cons c cs =>
      obtain ⟨p, hp⟩ := ih (alSet2 cursor rk bn c.id) true
      exact ⟨p, by simp [initBranches, bind, Except.bind, hl, hp]⟩

theorem initBranches_alGet_other (env : Env) (rk rk0 : String) (hne : rk0 ≠ rk) :
    ∀ (bns : List String) (cursor : Cursor) (upd : Bool) (p : Cursor × Bool),
      initBranches env rk bns cursor upd = .ok p → alGet p.1 rk0 = alGet cursor rk0 := by
  intro bns
  induction bns with
  | nil =>
    intro cursor upd p h
    simp [initBranches] at h
    rw [← h]
  | cons bn rest ih =>
    intro cursor upd p h
    cases hl : fetch_commits env rk bn with
    | error e => simp [initBranches, bind, Except.bind, hl] at h
    | ok l =>
      cases l with
      | nil => exact ih cursor upd p (by simpa [initBranches, bind, Except.bind, hl] using h)
      | cons c cs =>
        have h2 : initBranches env rk rest (alSet2 cursor rk bn c.id) true = .ok p := by
          simpa [initBranches, bind, Except.bind, hl] using h
        rw [ih _ _ _ h2]
        exact alGet_alSet2_other cursor rk rk0 bn c.id (Ne.symm hne)

theorem initBranches_keep (env : Env) (rk bn0 v : String)
    (Hdet : ∀ c cs, fetch_commits env rk bn0 = .ok (c :: cs) → c.id = v) :
    ∀ (bns : List String) (cursor : Cursor) (upd : Bool) (p : Cursor × Bool),
      alGet2 cursor rk bn0 = some v →
      initBranches env rk bns cursor upd = .ok p → alGet2 p.1 rk bn0 = some v := by
  intro bns
  induction bns with
  | nil =>
    intro cursor upd p hv h
    simp [initBranches] at h
    rw [← h]
    exact hv
  | cons bn rest ih =>
    intro cursor upd p hv h
    cases hl : fetch_commits env rk bn with
    | error e => simp [initBranches, bind, Except.bind, hl] at h
    | ok l =>
      cases l with
      | nil => exact ih cursor upd p hv (by simpa [initBranches, bind, Except.bind, hl] using h)
      | cons c cs =>
        have h2 : initBranches env rk rest (alSet2 cursor rk bn c.id) true = .ok p := by
          simpa [initBranches, bind, Except.bind, hl] using h
        by_cases hbn : bn = bn0
        · subst hbn
          have hcid : c.id = v := Hdet c cs hl
          refine ih _ _ p ?_ h2
          rw [alGet2_alSet2_self, hcid]
        · refine ih _ _ p ?_ h2
          rw [alGet2_alSet2_ne_branch cursor rk bn bn0 c.id hbn]
          exact hv

theorem initBranches_seeds (env : Env) (rk bn0 : String) (c : Commit) (cs : List Commit)
    (hfetch : fetch_commits env rk bn0 = .ok (c :: cs)) :
    ∀ (bns : List String) (cursor : Cursor) (upd : Bool) (p : Cursor × Bool),
      bn0 ∈ bns → initBranches env rk bns cursor upd = .ok p →
      alGet2 p.1 rk bn0 = some c.id := by
  intro bns
  induction bns with
  | nil => intro cursor upd p hmem; exact absurd hmem (by simp)
  | cons bn rest ih =>
    intro cursor upd p hmem h
    by_cases hbn : bn = bn0
    · subst hbn
      have h2 : initBranches env rk rest (alSet2 cursor rk bn c.id) true = .ok p := by
        simpa [initBranches, bind, Except.bind, hfetch] using h
      refine initBranches_keep env rk bn c.id ?_ rest _ true p ?_ h2
      · intro c2 cs2 hf
        rw [hfetch] at hf
        injection hf with h3
        injection h3 with h4 _
        rw [← h4]
      · rw [alGet2_alSet2_self]
    · have hmem' : bn0 ∈ rest := by
        cases List.mem_cons.mp hmem with
        | inl he => exact absurd he.symm hbn
        | inr ht => exact ht
      cases hl : fetch_commits env rk bn with
      | error e => simp [initBranches, bind, Except.bind, hl] at h
      | ok l =>
        cases l with
        | nil => exact ih _ _ p hmem' (by simpa [initBranches, bind, Except.bind, hl] using h)
        | cons d ds => exact ih _ _ p hmem' (by simpa [initBranches, bind, Except.bind, hl] using h)

theorem initRepos_ok (env : Env)
    (H : ∀ rk bn, ∃ l, fetch_commits env rk bn = .ok l) :
    ∀ (repos : List String) (cursor : Cursor) (upd : Bool),
      ∃ p, initRepos env repos cursor upd = .ok p := by
  intro repos
  induction repos with
  | nil => intro cursor upd; exact ⟨(cursor, upd), rfl⟩
  | cons rk rest ih =>
    intro cursor upd
    by_cases hk : (alGet cursor rk).isSome
    · obtain ⟨p, hp⟩ := ih cursor upd
      exact ⟨p, by simp [initRepos, hk, hp]⟩
    · obtain ⟨p1, hp1⟩ :=
        initBranches_ok env rk (fun bn => H rk bn) (fetch_branches env rk)
          (alSet cursor rk []) upd
      obtain ⟨p, hp⟩ := ih p1.1 p1.2
      exact ⟨p, by simp [initRepos, hk, bind, Except.bind, hp1, hp]⟩

theorem initRepos_keep (env : Env) (rk0 bn0 v : String) :
    ∀ (repos : List String) (cursor : Cursor) (upd : Bool) (p : Cursor × Bool),
      alGet2 cursor rk0 bn0 = some v →
      initRepos env repos cursor upd = .ok p → alGet2 p.1 rk0 bn0 = some v := by
  intro repos
  induction repos with
  | nil =>
    intro cursor upd p hv h
    simp [initRepos] at h
    rw [← h]
    exact hv
  | cons rk rest ih =>
    intro cursor upd p hv h
    by_cases hk : (alGet cursor rk).isSome
    · exact ih cursor upd p hv (by simpa [initRepos, hk] using h)
    · have hne : rk0 ≠ rk := by
        intro he
        rw [← he] at hk
        exact hk (alGet2_isSome cursor rk0 bn0 v hv)
      cases h1 : initBranches env rk (fetch_branches env rk) (alSet cursor rk []) upd with
      | error e => simp [initRepos, hk, bind, Except.bind, h1] at h
      | ok p1 =>
        have h2 : initRepos env rest p1.1 p1.2 = .ok p := by
          simpa [initRepos, hk, bind, Except.bind, h1] using h
        have hpres : alGet p1.1 rk0 = alGet cursor rk0 := by
          rw [initBranches_alGet_other env rk rk0 hne _ _ _ p1 h1]
          exact alGet_alSet_ne cursor rk rk0 [] (Ne.symm hne)
        have hv' : alGet2 p1.1 rk0 bn0 = some v := by
          unfold alGet2
          rw [hpres]
          exact hv
      
        exact ih p1.1 p1.2 p hv' h2

theorem initRepos_seeds (env : Env) (rk bn0 : String) (c : Commit) (cs : List Commit)
    (hfetch : fetch_commits env rk bn0 = .ok (c :: cs))
    (hmem : bn0 ∈ fetch_branches env rk) :
    ∀ (repos : List String) (cursor : Cursor) (upd : Bool) (p : Cursor × Bool),
      rk ∈ repos → alGet cursor rk = none →
      initRepos env repos cursor upd = .ok p → alGet2 p.1 rk bn0 = some c.id := by
  intro repos
  induction repos with
  | nil => intro cursor upd p hmemr; exact absurd hmemr (by simp)
  | cons rk1 rest ih =>
    intro cursor upd p hmemr hnone h
    by_cases hr : rk1 = rk
    · subst hr
      have hk : ¬ (alGet cursor rk1).isSome := by rw [hnone]; simp
      cases h1 : initBranches env rk1 (fetch_branches env rk1) (alSet cursor rk1 []) upd with
      | error e => simp [initRepos, hk, bind, Except.bind, h1] at h
      | ok p1 =>
        have h2 : initRepos env rest p1.1 p1.2 = .ok p := by
          simpa [initRepos, hk, bind, Except.bind, h1] using h
        have hseed : alGet2 p1.1 rk1 bn0 = some c.id :=
          initBranches_seeds env rk1 bn0 c cs hfetch (fetch_branches env rk1) _ _ p1 hmem h1
        exact initRepos_keep env rk1 bn0 c.id rest p1.1 p1.2 p hseed h2
    · have hmem' : rk ∈ rest := by
        cases List.mem_cons.mp hmemr with
        | inl he => exact absurd he.symm hr
        | inr ht => exact ht
      by_cases hk : (alGet cursor rk1).isSome
      · exact ih cursor upd p hmem' hnone (by simpa [initRepos, hk] using h)
      · cases h1 : initBranches env rk1 (fetch_branches env rk1) (alSet cursor rk1 []) upd with
        | error e => simp [initRepos, hk, bind, Except.bind, h1] at h
        | ok p1 =>
          have h2 : initRepos env rest p1.1 p1.2 = .ok p := by
            simpa [initRepos, hk, bind, Except.bind, h1] using h
          have hnone' : alGet p1.1 rk = none := by
            rw [initBranches_alGet_other env rk1 rk (fun he => hr he.symm) _ _ _ p1 h1]
            rw [alGet_alSet_ne cursor rk1 rk [] hr]
            exact hnone
          exact ih p1.1 p1.2 p hmem' hnone' h2

/-- **C4** (confirmed).  On cold start — a configured repository `rk` with
no existing cursor entry — initialization seeds a cursor for every
filtered-in branch (indeed for *every* branch whose commit fetch is
non-empty; the blacklist hypothesis mirrors the claim and is not even
needed, because `initialize_last_commits` applies no filtering) to that
branch's current newest commit id, and dispatches zero notifications during
the pass: the produced events contain no dispatch. -/
theorem cold_start_seeds_without_notifying (env : Env) (cursor0 : Cursor)
    (rk bn : String) (c : Commit) (cs : List Commit) (bp : List (String × String))
    (H : ∀ rk' bn', ∃ l, fetch_commits env rk' bn' = .ok l)
    (hrepo : rk ∈ env.repos)
    (hcold : alGet cursor0 rk = none)
    (hbranch : bn ∈ fetch_branches env rk)
    (hfiltered : is_branch_blacklisted rk bn bp = false)
    (hfetch : fetch_commits env rk bn = .ok (c :: cs))
    (hw : env.writable = true) :
    ∃ (cursor1 : Cursor) (evs : List Event),
      init_last_commits env cursor0 = .ok (cursor1, evs)
        ∧ alGet2 cursor1 rk bn = some c.id
        ∧ ∀ e ∈ evs, e.isDispatch = false := by
  obtain ⟨p, hp⟩ := initRepos_ok env H env.repos cursor0 false
  have hseed :=
    initRepos_seeds env rk bn c cs hfetch hbranch env.repos cursor0 false p hrepo hcold hp
  cases hupd : p.2 with
  | false =>
    refine ⟨p.1, [], ?_, hseed, by simp⟩
    simp [init_last_commits, bind, Except.bind, hp, hupd, pure, Except.pure]
  | true =>
    refine ⟨p.1, [.savedFile p.1], ?_, hseed, by simp [Event.isDispatch]⟩
    simp [init_last_commits, bind, Except.bind, hp, hupd, save_last_commits_m, hw,
      pure, Except.pure]

/-- Cold-start world: one configured repository, one branch `main`, one
commit `m1`, empty loaded cursor state. -/
def envCold : Env := mkEnv ["a/b"] (fun _ => ["main"]) (fun _ _ => [rawC "m1"]) 204 true

theorem cold_start_seeds_without_notifying_witness :
    ∃ (cursor1 : Cursor) (evs : List Event),
      init_last_commits envCold [] = .ok (cursor1, evs)
        ∧ alGet2 cursor1 "a/b" "main" = some "m1"
        ∧ ∀ e ∈ evs, e.isDispatch = false :=
  cold_start_seeds_without_notifying envCold [] "a/b" "main"
    (mkCommit "a/b" "main" "m1") [] []
    (fun rk' bn' => ⟨[mkCommit rk' bn' "m1"], rfl⟩)
    (by decide) rfl (by decide) rfl rfl rfl
